import Mathlib

/-!
Shallow embedding of the local-first persistence and sync engine of the
nanobananapro UI.

Embedded source files:
- `src/app/_components/create-page/storage.ts` : blob/document store helpers
  (`getImageKey`, `isRef`, `getRefKey`, `makeRef`), the reference resolver
  (`persistGenerations`, `restoreGenerations`), the garbage collector
  (`cleanOrphanedImages`) and the favorites round trip
  (`persistFavorites`, `restoreFavorites`).
- `src/app/_components/create-page.tsx` : the pending reconciliation effect
  and `handleToggleFavorite`.
- `src/app/_components/create-page/use-cloud-sync.ts` : the sign-in merge
  and the debounced delta sync.
- the cloud storage module (`toDbFormat`, `saveGenerationsWithImages`).

Conventions: binary blobs are modelled as strings; the browser blob store
(localforage) is an association list with last-write-wins lookup; failing
asynchronous fetches are modelled by an `Option`-valued fetch parameter;
`URL.createObjectURL` is modelled as a computable injection into
`blob:`-prefixed handles.
-/

namespace NanoBanana

/-! ## JavaScript string primitives -/

/-- Model of JavaScript `String.prototype.startsWith`. -/
def strStartsWith (s pre : String) : Bool :=
  pre.data.isPrefixOf s.data

/-- Replace the first occurrence of `pat` (deleting it) in a character list:
the semantics of JavaScript `String.prototype.replace` with a string pattern
and an empty replacement. -/
def replaceFirstAux (pat : List Char) : List Char → List Char
  | [] => []
  | c :: rest =>
    if pat.isPrefixOf (c :: rest) then (c :: rest).drop pat.length
    else c :: replaceFirstAux pat rest

/-- Model of JavaScript `str.replace(pat, "")`: removes the first occurrence
of `pat` from `s`. -/
def replaceFirst (s pat : String) : String :=
  String.mk (replaceFirstAux pat.data s.data)

/-- Model of JavaScript `String.prototype.trim`. -/
def jsTrim (s : String) : String :=
  String.mk (((s.data.dropWhile Char.isWhitespace).reverse.dropWhile
    Char.isWhitespace).reverse)

/-! ## Data model (`Generation`, `InputImage`) -/

/-- An input (edit-reference) image attached to a generation record. -/
structure InputImage where
  id : String
  name : String
  url : String
  width : Nat
  height : Nat
deriving DecidableEq, Repr

/-- Pixel dimensions of a generation batch. -/
structure GenSize where
  width : Nat
  height : Nat
deriving DecidableEq, Repr

/-- A generation record (`Generation` in `create-page/types`): one
user-initiated generation batch with its output image slots and input
images. -/
structure Generation where
  id : String
  prompt : String
  aspect : String
  quality : String
  outputFormat : String
  provider : String
  createdAt : String
  size : GenSize
  images : List String
  inputImages : List InputImage
deriving DecidableEq, Repr

/-! ## Blob store -/

/-- Binary payloads are modelled as strings. -/
abbrev Blob := String

/-- The browser key-value blob store, modelled as an association list with
last-write-wins lookup (the most recent `put` shadows older entries). -/
abbrev BlobStore := List (String × Blob)

/-- Model of `store.getItem(key)` restricted to blob entries. -/
def lookupBlob (store : BlobStore) (key : String) : Option Blob :=
  (store.find? (fun entry => entry.1 = key)).map (fun entry => entry.2)

/-- Model of `store.setItem(key, blob)`. -/
def putBlob (store : BlobStore) (key : String) (b : Blob) : BlobStore :=
  (key, b) :: store

/-- Apply a batch of blob writes to the store, in order. -/
def applyWrites (store : BlobStore) (writes : List (String × Blob)) : BlobStore :=
  writes.foldl (fun st w => putBlob st w.1 w.2) store

/-! ## Key scheme and reference strings (`storage.ts`) -/

/-- The two kinds of image keys produced by `getImageKey`. -/
inductive ImageKeyType where
  | output
  | input
deriving DecidableEq, Repr

/-- Model of `getImageKey(generationId, index, type, inputId)`: deterministic
blob-store key for an image slot. The source guards with JS truthiness
(`type === "input" && inputId`), so a missing or empty `inputId` falls
through to the index-style key. -/
def getImageKey (generationId : String) (index : Nat) (type : ImageKeyType)
    (inputId : Option String) : String :=
  match type, inputId with
  | .input, some iid =>
    if iid = "" then "img:" ++ generationId ++ ":" ++ toString index
    else "img:" ++ generationId ++ ":input:" ++ iid
  | _, _ => "img:" ++ generationId ++ ":" ++ toString index

/-- Model of `isRef(str)`: a field value is a reference string when it starts
with `ref:img:`. -/
def isRef (str : String) : Bool :=
  strStartsWith str "ref:img:"

/-- Model of `getRefKey(str)`: `str.replace("ref:", "")` (first occurrence
only, as in JavaScript). -/
def getRefKey (str : String) : String :=
  replaceFirst str "ref:"

/-- Model of `makeRef(key)`. -/
def makeRef (key : String) : String :=
  "ref:" ++ key

/-- Model of `URL.createObjectURL`: a session-scoped displayable handle for a
blob. -/
def createObjectURL (b : Blob) : String :=
  "blob:" ++ b

/-! ## Reference resolver: dehydrate (`persistGenerations`)

`urlToBlob` (a network/data-URL fetch that may fail) is modelled by a
parameter `fetch : String → Option Blob`; `none` models the `catch` branch
(failed fetch or failed store write). Each helper returns the rewritten
field together with the list of blob writes it performs. -/

/-- Model of the output-image branch of `persistGenerations` for one slot. -/
def persistImage (fetch : String → Option Blob) (genId : String) (index : Nat)
    (img : String) : String × List (String × Blob) :=
  if img = "" then ("", [])
  else if isRef img then (img, [])
  else
    let key := getImageKey genId index .output none
    if strStartsWith img "blob:" then (makeRef key, [])
    else
      match fetch img with
      | some b => (makeRef key, [(key, b)])
      | none => (img, [])

/-- Model of the input-image branch of `persistGenerations` for one input
image. -/
def persistInputImage (fetch : String → Option Blob) (genId : String)
    (img : InputImage) : InputImage × List (String × Blob) :=
  if img.url = "" then (img, [])
  else if isRef img.url then (img, [])
  else
    let key := getImageKey genId 0 .input (some img.id)
    if strStartsWith img.url "blob:" then ({ img with url := makeRef key }, [])
    else
      match fetch img.url with
      | some b => ({ img with url := makeRef key }, [(key, b)])
      | none => (img, [])

/-- Indexed map that also accumulates blob writes (the `images.map((img,
index) => ...)` pattern). -/
def mapIdxAcc (f : Nat → α → β × List γ) : Nat → List α → List β × List γ
  | _, [] => ([], [])
  | n, a :: rest =>
    let hd := f n a
    let tl := mapIdxAcc f (n + 1) rest
    (hd.1 :: tl.1, hd.2 ++ tl.2)

/-- Map that accumulates blob writes (the `inputImages.map(...)` pattern). -/
def mapAcc (f : α → β × List γ) : List α → List β × List γ
  | [] => ([], [])
  | a :: rest =>
    let hd := f a
    let tl := mapAcc f rest
    (hd.1 :: tl.1, hd.2 ++ tl.2)

/-- Model of the per-record body of `persistGenerations`: rewrite all image
fields and collect the blob writes. -/
def persistGeneration (fetch : String → Option Blob) (gen : Generation) :
    Generation × List (String × Blob) :=
  let outs := mapIdxAcc (persistImage fetch gen.id) 0 gen.images
  let ins := mapAcc (persistInputImage fetch gen.id) gen.inputImages
  ({ gen with images := outs.1, inputImages := ins.1 }, outs.2 ++ ins.2)

/-- Model of `persistGenerations(generations)`: returns the persisted
(document-store) copies of the records and the blob store after all image
writes. -/
def persistGenerations (fetch : String → Option Blob) (store : BlobStore)
    (generations : List Generation) : List Generation × BlobStore :=
  let results := generations.map (persistGeneration fetch)
  (results.map (fun r => r.1),
    applyWrites store ((results.map (fun r => r.2)).flatten))

/-! ## Reference resolver: hydrate (`restoreGenerations`) -/

/-- Model of the output-image branch of `restoreGenerations` for one stored
slot: references are resolved from the blob store (degrading to an empty
slot when the blob is missing), legacy inline data is migrated on read. -/
def hydrateImage (fetch : String → Option Blob) (store : BlobStore)
    (genId : String) (index : Nat) (img : String) :
    String × List (String × Blob) :=
  if img = "" then ("", [])
  else if isRef img then
    match lookupBlob store (getRefKey img) with
    | some b => (createObjectURL b, [])
    | none => ("", [])
  else
    let key := getImageKey genId index .output none
    match fetch img with
    | some b => (createObjectURL b, [(key, b)])
    | none => (img, [])

/-- Model of the input-image branch of `restoreGenerations` for one stored
input image. -/
def hydrateInputImage (fetch : String → Option Blob) (store : BlobStore)
    (genId : String) (img : InputImage) : InputImage × List (String × Blob) :=
  if img.url = "" then (img, [])
  else if isRef img.url then
    match lookupBlob store (getRefKey img.url) with
    | some b => ({ img with url := createObjectURL b }, [])
    | none => ({ img with url := "" }, [])
  else
    let key := getImageKey genId 0 .input (some img.id)
    match fetch img.url with
    | some b => ({ img with url := createObjectURL b }, [(key, b)])
    | none => (img, [])

/-- Model of the per-record body of `restoreGenerations`. All records of one
load hydrate against the same snapshot of the store (the loads run
concurrently via `Promise.all`); migration writes are collected. -/
def hydrateGeneration (fetch : String → Option Blob) (store : BlobStore)
    (gen : Generation) : Generation × List (String × Blob) :=
  let outs := mapIdxAcc (hydrateImage fetch store gen.id) 0 gen.images
  let ins := mapAcc (hydrateInputImage fetch store gen.id) gen.inputImages
  ({ gen with images := outs.1, inputImages := ins.1 }, outs.2 ++ ins.2)

/-- Model of `restoreGenerations()` applied to the stored document
`storedData`: returns the hydrated records and the blob store after the
migration writes. -/
def restoreGenerations (fetch : String → Option Blob) (store : BlobStore)
    (storedData : List Generation) : List Generation × BlobStore :=
  let results := storedData.map (hydrateGeneration fetch store)
  (results.map (fun r => r.1),
    applyWrites store ((results.map (fun r => r.2)).flatten))

/-! ## Garbage collector (`cleanOrphanedImages`) -/

/-- Keys referenced by the output image slots of one record (the first half
of `collectKeys`). -/
def collectOutputKeys (genId : String) : Nat → List String → List String
  | _, [] => []
  | index, img :: rest =>
    let restKeys := collectOutputKeys genId (index + 1) rest
    if img = "" then restKeys
    else
      (if isRef img then getRefKey img
       else getImageKey genId index .output none) :: restKeys

/-- Keys referenced by the input images of one record (the second half of
`collectKeys`). -/
def collectInputKeys (genId : String) (inputImages : List InputImage) :
    List String :=
  inputImages.filterMap (fun img =>
    if img.url = "" then none
    else some (if isRef img.url then getRefKey img.url
      else getImageKey genId 0 .input (some img.id)))

/-- Model of `collectKeys(gen)` in `cleanOrphanedImages`. -/
def collectKeys (gen : Generation) : List String :=
  collectOutputKeys gen.id 0 gen.images ++ collectInputKeys gen.id gen.inputImages

/-- The referenced-key set of a liveness snapshot: every key reachable from
any completed or pending record. -/
def referencedKeys (generations pending : List Generation) : List String :=
  ((generations ++ pending).map collectKeys).flatten

/-- Model of `cleanOrphanedImages(generations, pending)` over the snapshot
`keys` of `store.keys()`: returns the list of removed keys. -/
def cleanOrphanedImages (generations pending : List Generation)
    (keys : List String) : List String :=
  let referenced := referencedKeys generations pending
  keys.filter (fun key =>
    strStartsWith key "img:" && !(decide (key ∈ referenced)))

/-! ## Favorites (`persistFavorites`, `restoreFavorites`,
`handleToggleFavorite`) -/

/-- Model of `persistFavorites(favorites)`: the JavaScript
`Array.from(set)` enumeration of the set, stored as the favorites document.
The unspecified set-iteration order is modelled by the sorted enumeration. -/
def persistFavorites (favorites : Finset String) : List String :=
  favorites.sort (fun a b => a ≤ b)

/-- Model of `restoreFavorites()` applied to the stored favorites document
(`none` models a missing or non-array document): `new Set(stored)`. -/
def restoreFavorites (stored : Option (List String)) : Finset String :=
  match stored with
  | some l => l.toFinset
  | none => ∅

/-- Composite favorite key, as built by `handleToggleFavorite`. -/
def favoriteKey (generationId : String) (imageIndex : Nat) : String :=
  generationId ++ ":" ++ toString imageIndex

/-- Model of `handleToggleFavorite(generationId, imageIndex)` acting on the
favorites set. -/
def handleToggleFavorite (favorites : Finset String) (generationId : String)
    (imageIndex : Nat) : Finset String :=
  let favoriteId := favoriteKey generationId imageIndex
  if favoriteId ∈ favorites then favorites.erase favoriteId
  else insert favoriteId favorites

/-! ## Pending-recovery manager (reconciliation effect in `create-page.tsx`) -/

/-- The state touched by the pending reconciliation effect: the completed
list, the in-memory pending list and the persisted pending document. -/
structure RecoveryState where
  generations : List Generation
  pending : List Generation
  pendingDoc : Option (List Generation)
deriving DecidableEq, Repr

/-- Model of `pendingGenerations.map(gen => existingIds.has(gen.id) ? ...)`:
record `i` keeps all its data and gets the fresh id `fresh i` exactly when
its id collides with an existing completed id. `fresh` models the successive
draws of `createId("generation")`. -/
def reconcileRecovered (fresh : Nat → String) (existingIds : List String) :
    Nat → List Generation → List Generation
  | _, [] => []
  | i, gen :: rest =>
    (if gen.id ∈ existingIds then { gen with id := fresh i } else gen)
      :: reconcileRecovered fresh existingIds (i + 1) rest

/-- Model of the pending reconciliation effect (`create-page.tsx`): with no
pending records it only marks the pass done; with no credentials it discards
the pending records and clears the pending document; with credentials it
promotes the pending records to the front of the completed list, renaming
colliding ids. -/
def reconcilePending (fresh : Nat → String) (apiKey geminiApiKey : String)
    (st : RecoveryState) : RecoveryState :=
  if st.pending = [] then st
  else if jsTrim apiKey = "" ∧ jsTrim geminiApiKey = "" then
    { st with pending := [], pendingDoc := none }
  else
    let existingIds := st.generations.map (fun gen => gen.id)
    { st with
        generations :=
          reconcileRecovered fresh existingIds 0 st.pending ++ st.generations,
        pending := [] }

/-! ## Sync reconciler (`use-cloud-sync.ts` and `create-page.tsx` callbacks) -/

/-- Structural insertion into a sorted list (helper for `sortByLe`). -/
def insertSorted (le : α → α → Bool) (a : α) : List α → List α
  | [] => [a]
  | b :: rest => if le a b then a :: b :: rest else b :: insertSorted le a rest

/-- Model of JavaScript `Array.prototype.sort(cmp)` (insertion sort; the
engine's sort algorithm is unspecified, only the comparator matters). -/
def sortByLe (le : α → α → Bool) : List α → List α
  | [] => []
  | a :: rest => insertSorted le a (sortByLe le rest)

/-- Model of the `onGenerationsLoaded` callback in `create-page.tsx`: add
only cloud records whose id is unknown locally, then sort by `createdAt`
descending. `time` models `new Date(s).getTime()`. -/
def mergeCloudGenerations (time : String → Nat)
    (localGens cloudGenerations : List Generation) : List Generation :=
  let localIds := localGens.map (fun g => g.id)
  let cloudOnly := cloudGenerations.filter (fun g => !(decide (g.id ∈ localIds)))
  if cloudOnly = [] then localGens
  else sortByLe (fun a b => decide (time b.createdAt ≤ time a.createdAt))
    (localGens ++ cloudOnly)

/-- Model of the pull half of `syncWithCloud` (`use-cloud-sync.ts`): compute
`cloudOnlyGenerations` and hand them to `onGenerationsLoaded` when
non-empty. -/
def syncWithCloudMerge (time : String → Nat)
    (localGens cloudGenerations : List Generation) : List Generation :=
  let localIds := localGens.map (fun g => g.id)
  let cloudOnlyGenerations :=
    cloudGenerations.filter (fun g => !(decide (g.id ∈ localIds)))
  if cloudOnlyGenerations = [] then localGens
  else mergeCloudGenerations time localGens cloudOnlyGenerations

/-- Lexicographic comparison of character lists by code point: the default
JavaScript `Array.prototype.sort` string comparator. -/
def charListLe : List Char → List Char → Bool
  | [], _ => true
  | _ :: _, [] => false
  | a :: as, b :: bs =>
    if a.toNat < b.toNat then true
    else if b.toNat < a.toNat then false
    else charListLe as bs

/-- Default JavaScript string comparison used by `ids.sort()`. -/
def strLe (a b : String) : Bool :=
  charListLe a.data b.data

/-- Sorted id list, modelling `JSON.stringify(ids.sort())` snapshot keys. -/
def sortStrings (l : List String) : List String :=
  sortByLe strLe l

/-- The records snapshot key: the sorted list of generation ids. -/
def generationsSyncKey (generations : List Generation) : List String :=
  sortStrings (generations.map (fun g => g.id))

/-- Model of one debounced `syncGenerations` firing (`use-cloud-sync.ts`):
`none` when the effect returns early because the current key equals the
last-synced snapshot; otherwise the batch passed to the upload call and the
snapshot after the firing. `uploadOk` models whether
`saveGenerationsWithImages` resolves or rejects. -/
def syncGenerationsTick (generations : List Generation)
    (lastSynced : List String) (uploadOk : Bool) :
    Option (List Generation × List String) :=
  let currentKey := generationsSyncKey generations
  if currentKey = lastSynced then none
  else
    let newGenerations :=
      generations.filter (fun g => !(decide (g.id ∈ lastSynced)))
    if newGenerations = [] then some ([], currentKey)
    else if uploadOk then some (newGenerations, currentKey)
    else some (newGenerations, lastSynced)

/-- Model of one debounced `syncFavorites` firing (`use-cloud-sync.ts`): the
whole current favorites set is passed to `saveFavoritesToCloud`; the
snapshot advances only when the upload resolves. -/
def syncFavoritesTick (favorites : List String) (lastSynced : List String)
    (uploadOk : Bool) : Option (List String × List String) :=
  let currentKey := sortStrings favorites
  if currentKey = lastSynced then none
  else if uploadOk then some (favorites, currentKey)
  else some (favorites, lastSynced)

/-! ## Remote upsert (cloud storage module) -/

/-- A row of the remote `generations` table, as produced by `toDbFormat`. -/
structure DbRow where
  id : String
  user_id : String
  prompt : String
  aspect : String
  quality : String
  output_format : String
  provider : String
  created_at : String
  size_width : Nat
  size_height : Nat
  images : List String
  input_images : List InputImage
deriving DecidableEq, Repr

/-- Model of `toDbFormat(generation, userId)`. -/
def toDbFormat (generation : Generation) (userId : String) : DbRow :=
  { id := generation.id
    user_id := userId
    prompt := generation.prompt
    aspect := generation.aspect
    quality := generation.quality
    output_format := generation.outputFormat
    provider := generation.provider
    created_at := generation.createdAt
    size_width := generation.size.width
    size_height := generation.size.height
    images := generation.images
    input_images := generation.inputImages }

/-- Modelled from the spec: the Remote Store collaborator
(`upsertRecords(records)`); the database client behind
`.upsert(rows, onConflict id)` is not part of this repository. Per the spec
it is an idempotent upsert keyed on `id`: each row replaces any existing
remote row with the same id. -/
def upsertRows (db rows : List DbRow) : List DbRow :=
  rows.foldl (fun acc row => acc.filter (fun r => r.id != row.id) ++ [row]) db

/-- Model of the image-upload step of `saveGenerationsWithImages`:
`uploadGenerationImages` (a remote storage call that may fail) is the
parameter `upload`; on failure the original images are kept. -/
def uploadImagesStep (upload : String → List String → Option (List String))
    (hasBase64 : String → Bool) (uploadImages : Bool) (gen : Generation) :
    Generation :=
  if uploadImages && gen.images.any hasBase64 then
    match upload gen.id gen.images with
    | some images => { gen with images := images }
    | none => gen
  else gen

/-- Model of `saveGenerationsWithImages(generations, uploadImages)` acting on
the remote table `db`. -/
def saveGenerationsWithImages
    (upload : String → List String → Option (List String))
    (hasBase64 : String → Bool) (userId : String) (db : List DbRow)
    (generations : List Generation) (uploadImages : Bool) : List DbRow :=
  let processedGenerations :=
    generations.map (uploadImagesStep upload hasBase64 uploadImages)
  upsertRows db (processedGenerations.map (fun gen => toDbFormat gen userId))

/-- Number of remote rows carrying the id `x`. -/
def countRowsWithId (db : List DbRow) (x : String) : Nat :=
  db.countP (fun r => decide (r.id = x))

/-! ## Field-wise record comparison -/

/-- All fields of two generation records agree except possibly the id. -/
abbrev sameExceptId (g g' : Generation) : Prop :=
  g'.prompt = g.prompt ∧ g'.aspect = g.aspect ∧ g'.quality = g.quality ∧
  g'.outputFormat = g.outputFormat ∧ g'.provider = g.provider ∧
  g'.createdAt = g.createdAt ∧ g'.size = g.size ∧ g'.images = g.images ∧
  g'.inputImages = g.inputImages

/-! ## Concrete instances used to evaluate the theorems on closed inputs -/

/-- Generation record with the given id, prompt and image fields and fixed
remaining metadata. -/
def mkGen (id prompt : String) (images : List String)
    (inputImages : List InputImage) : Generation :=
  { id := id, prompt := prompt, aspect := "1:1", quality := "standard",
    outputFormat := "png", provider := "seedream", createdAt := "2024-01-01",
    size := ⟨1024, 1024⟩, images := images, inputImages := inputImages }

/-- A fetch that always succeeds, tagging the url. -/
def totalFetch : String → Option Blob :=
  fun url => some ("bytes:" ++ url)

/-- Record whose only output slot references the key `img:live:0`. -/
def gcLiveGen : Generation :=
  mkGen "live" "p" ["ref:img:live:0"] []

/-- Local record with id `1`. -/
def mergeLocalA : Generation :=
  mkGen "1" "local prompt" [] []

/-- Remote record with the same id `1` but a different prompt. -/
def mergeRemoteA : Generation :=
  mkGen "1" "remote prompt" [] []

/-- Remote-only record with id `2`. -/
def mergeRemoteB : Generation :=
  mkGen "2" "other prompt" [] []

/-- Record holding a pre-existing foreign reference and an unbacked `blob:`
handle: the input refuting the unrestricted reference-integrity claim. -/
def dehydrateOddGen : Generation :=
  mkGen "g" "p" ["ref:img:x:9", "blob:handle"] []

/-- Record whose image fields are raw data URLs. -/
def dehydrateRawGen : Generation :=
  mkGen "g" "p" ["data:x"] [⟨"i1", "name", "data:y", 4, 4⟩]

/-- Stored record whose reference fields point at keys absent from the blob
store. -/
def missingRefGen : Generation :=
  mkGen "m" "p" ["ref:img:m:0"] [⟨"i1", "name", "ref:img:m:input:i1", 4, 4⟩]

/-- A completed record with id `gen-a`. -/
def recGenA : Generation :=
  mkGen "gen-a" "done" ["ref:img:gen-a:0"] []

/-- A recovered pending record colliding with `gen-a`, with empty slots. -/
def recPendA : Generation :=
  mkGen "gen-a" "interrupted" ["", ""] []

/-- Startup state with one completed record and one stale pending record. -/
def recoveryStateW : RecoveryState :=
  { generations := [recGenA], pending := [recPendA],
    pendingDoc := some [recPendA] }

/-- Record used to exercise one debounced records-sync firing. -/
def tickGen : Generation :=
  mkGen "w7" "tick" [] []

/-- Record used to exercise the remote upsert path. -/
def upsertGen : Generation :=
  mkGen "a" "up" ["ref:img:a:0"] []

/-! ## Helper lemmas -/

theorem mem_insertSorted (le : α → α → Bool) (x a : α) (l : List α) :
    a ∈ insertSorted le x l ↔ a = x ∨ a ∈ l := by
  induction l with
  | nil => simp [insertSorted]
  | cons b rest ih =>
    by_cases h : le x b = true
    · simp [insertSorted, h]
    · simp [insertSorted, h, ih]
      tauto

theorem mem_sortByLe (le : α → α → Bool) (a : α) (l : List α) :
    a ∈ sortByLe le l ↔ a ∈ l := by
  induction l with
  | nil => simp [sortByLe]
  | cons b rest ih => simp [sortByLe, mem_insertSorted, ih]

theorem lookupBlob_putBlob_self (store : BlobStore) (k : String) (b : Blob) :
    lookupBlob (putBlob store k b) k = some b := by
  simp [lookupBlob, putBlob, List.find?]

theorem lookupBlob_putBlob_isSome (store : BlobStore) (k k' : String)
    (b : Blob) (h : (lookupBlob store k).isSome = true) :
    (lookupBlob (putBlob store k' b) k).isSome = true := by
  by_cases hk : k' = k
  · subst hk
    simp [lookupBlob_putBlob_self]
  · simpa [lookupBlob, putBlob, List.find?, hk, Ne.symm hk] using h

theorem applyWrites_cons (store : BlobStore) (w : String × Blob)
    (ws : List (String × Blob)) :
    applyWrites store (w :: ws) = applyWrites (putBlob store w.1 w.2) ws := rfl

theorem lookupBlob_applyWrites_mono (ws : List (String × Blob))
    (store : BlobStore) (k : String)
    (h : (lookupBlob store k).isSome = true) :
    (lookupBlob (applyWrites store ws) k).isSome = true := by
  induction ws generalizing store with
  | nil => exact h
  | cons w rest ih =>
    rw [applyWrites_cons]
    exact ih _ (lookupBlob_putBlob_isSome _ _ _ _ h)

theorem lookupBlob_applyWrites_of_mem (ws : List (String × Blob))
    (store : BlobStore) (k : String) (h : k ∈ ws.map Prod.fst) :
    (lookupBlob (applyWrites store ws) k).isSome = true := by
  induction ws generalizing store with
  | nil => simp at h
  | cons w rest ih =>
    rw [applyWrites_cons]
    rcases List.mem_cons.mp h with hk | hk
    · by_cases hrest : k ∈ rest.map Prod.fst
      · exact ih _ hrest
      · refine lookupBlob_applyWrites_mono _ _ _ ?_
        subst hk
        simp [lookupBlob_putBlob_self]
    · exact ih _ hk

theorem mapIdxAcc_length (f : Nat → α → β × List γ) (n : Nat) (l : List α) :
    (mapIdxAcc f n l).1.length = l.length := by
  induction l generalizing n with
  | nil => rfl
  | cons a rest ih => simp [mapIdxAcc, ih]

theorem mapIdxAcc_fst_getElem (f : Nat → α → β × List γ) (n : Nat)
    (l : List α) (j : Nat) :
    (mapIdxAcc f n l).1[j]? = (l[j]?).map (fun a => (f (n + j) a).1) := by
  induction l generalizing n j with
  | nil => simp [mapIdxAcc]
  | cons a rest ih =>
    cases j with
    | zero => simp [mapIdxAcc]
    | succ j' =>
      have hn : n + (j' + 1) = (n + 1) + j' := by omega
      simp [mapIdxAcc, ih (n + 1) j', hn]

theorem mapIdxAcc_snd_subset (f : Nat → α → β × List γ) (n : Nat)
    (l : List α) (j : Nat) (a : α) (h : l[j]? = some a) :
    ∀ w ∈ (f (n + j) a).2, w ∈ (mapIdxAcc f n l).2 := by
  induction l generalizing n j with
  | nil => simp at h
  | cons b rest ih =>
    cases j with
    | zero =>
      rw [List.getElem?_cons_zero, Option.some_inj] at h
      subst h
      intro w hw
      simp [mapIdxAcc]
      exact Or.inl hw
    | succ j' =>
      rw [List.getElem?_cons_succ] at h
      intro w hw
      have hn : n + (j' + 1) = (n + 1) + j' := by omega
      rw [hn] at hw
      simp [mapIdxAcc]
      exact Or.inr (ih (n + 1) j' h w hw)

theorem mapAcc_length (f : α → β × List γ) (l : List α) :
    (mapAcc f l).1.length = l.length := by
  induction l with
  | nil => rfl
  | cons a rest ih => simp [mapAcc, ih]

theorem mapAcc_fst_getElem (f : α → β × List γ) (l : List α) (j : Nat) :
    (mapAcc f l).1[j]? = (l[j]?).map (fun a => (f a).1) := by
  induction l generalizing j with
  | nil => simp [mapAcc]
  | cons a rest ih =>
    cases j with
    | zero => simp [mapAcc]
    | succ j' => simp [mapAcc, ih j']

theorem mapAcc_snd_subset (f : α → β × List γ) (l : List α) (j : Nat) (a : α)
    (h : l[j]? = some a) : ∀ w ∈ (f a).2, w ∈ (mapAcc f l).2 := by
  induction l generalizing j with
  | nil => simp at h
  | cons b rest ih =>
    cases j with
    | zero =>
      rw [List.getElem?_cons_zero, Option.some_inj] at h
      subst h
      intro w hw
      simp [mapAcc]
      exact Or.inl hw
    | succ j' =>
      rw [List.getElem?_cons_succ] at h
      intro w hw
      simp [mapAcc]
      exact Or.inr (ih j' h w hw)

/-! ## C1 : garbage collector safety -/

/-- C1: `cleanOrphanedImages` removes a stored key if and only if the key
starts with `img:` and is not in the referenced-key set computed from every
record of the liveness snapshot (completed and pending, output and input
fields); in particular no key referenced by any record of the snapshot is
ever removed. -/
theorem cleanOrphanedImages_removes_iff_unreferenced
    (generations pending : List Generation) (keys : List String)
    (key : String) :
    (key ∈ cleanOrphanedImages generations pending keys ↔
      key ∈ keys ∧ strStartsWith key "img:" = true ∧
        key ∉ referencedKeys generations pending) ∧
    (key ∈ referencedKeys generations pending →
      key ∉ cleanOrphanedImages generations pending keys) := by
  have h : key ∈ cleanOrphanedImages generations pending keys ↔
      key ∈ keys ∧ strStartsWith key "img:" = true ∧
        key ∉ referencedKeys generations pending := by
    simp [cleanOrphanedImages, List.mem_filter]
  exact ⟨h, fun href hmem => (h.mp hmem).2.2 href⟩

/-- C1 witness: on a concrete snapshot the referenced key `img:live:0`
survives collection while the orphan `img:orphan:0` is removed. -/
theorem cleanOrphanedImages_removes_iff_unreferenced_witness :
    "img:live:0" ∈ referencedKeys [gcLiveGen] [] ∧
    "img:live:0" ∉
      cleanOrphanedImages [gcLiveGen] [] ["img:live:0", "img:orphan:0"] ∧
    "img:orphan:0" ∈
      cleanOrphanedImages [gcLiveGen] [] ["img:live:0", "img:orphan:0"] := by
  refine ⟨by decide, ?_, ?_⟩
  · exact (cleanOrphanedImages_removes_iff_unreferenced [gcLiveGen] []
      ["img:live:0", "img:orphan:0"] "img:live:0").2 (by decide)
  · exact (cleanOrphanedImages_removes_iff_unreferenced [gcLiveGen] []
      ["img:live:0", "img:orphan:0"] "img:orphan:0").1.mpr (by decide)

/-! ## C9 : favorites round trip -/

/-- C9: for every favorites set, `persistFavorites` followed by
`restoreFavorites` returns a set equal to the original: the Set to Array to
Set round trip through the document store preserves membership exactly. -/
theorem persistFavorites_restoreFavorites_roundtrip (favorites : Finset String) :
    restoreFavorites (some (persistFavorites favorites)) = favorites := by
  ext x
  simp only [restoreFavorites, persistFavorites, List.mem_toFinset]
  exact Finset.mem_sort (fun a b => a ≤ b)

/-! ## C10 : favorite toggling -/

/-- C10: `handleToggleFavorite` adds the composite key when absent, removes
it when present, leaves every other element unchanged, and is an involution
on the favorites set. -/
theorem handleToggleFavorite_spec (favorites : Finset String)
    (generationId : String) (imageIndex : Nat) :
    handleToggleFavorite
        (handleToggleFavorite favorites generationId imageIndex)
        generationId imageIndex = favorites ∧
    (favoriteKey generationId imageIndex ∈
        handleToggleFavorite favorites generationId imageIndex ↔
      favoriteKey generationId imageIndex ∉ favorites) ∧
    ∀ x, x ≠ favoriteKey generationId imageIndex →
      (x ∈ handleToggleFavorite favorites generationId imageIndex ↔
        x ∈ favorites) := by
  by_cases h : favoriteKey generationId imageIndex ∈ favorites
  · refine ⟨?_, ?_, ?_⟩
    · simp [handleToggleFavorite, h, Finset.insert_erase h]
    · simp [handleToggleFavorite, h]
    · intro x hx
      simp [handleToggleFavorite, h, Finset.mem_erase, hx]
  · refine ⟨?_, ?_, ?_⟩
    · simp [handleToggleFavorite, h, Finset.erase_insert h]
    · simp [handleToggleFavorite, h]
    · intro x hx
      simp [handleToggleFavorite, h, Finset.mem_insert, hx]

/-- C10 witness: toggling on then off at a concrete set and pair restores
the set, and an unrelated element is untouched. -/
theorem handleToggleFavorite_spec_witness :
    handleToggleFavorite (handleToggleFavorite {"gen-1:7"} "gen-1" 2)
        "gen-1" 2 = {"gen-1:7"} ∧
    ("gen-1:2" ∈ handleToggleFavorite {"gen-1:7"} "gen-1" 2 ↔
      "gen-1:2" ∉ ({"gen-1:7"} : Finset String)) ∧
    ("gen-1:7" ∈ handleToggleFavorite {"gen-1:7"} "gen-1" 2 ↔
      "gen-1:7" ∈ ({"gen-1:7"} : Finset String)) := by
  refine ⟨(handleToggleFavorite_spec {"gen-1:7"} "gen-1" 2).1, ?_, ?_⟩
  · exact (handleToggleFavorite_spec {"gen-1:7"} "gen-1" 2).2.1
  · exact (handleToggleFavorite_spec {"gen-1:7"} "gen-1" 2).2.2 "gen-1:7"
      (by decide)

/-! ## C4 : pending recovery without credentials -/

/-- C4: when every stored API key is empty, the recovery pass discards every
restored pending record: the pending list becomes empty, the persisted
pending document is cleared, and the completed list is unchanged (so no
recovered pending record appears in it). -/
theorem reconcilePending_no_credentials (fresh : Nat → String)
    (apiKey geminiApiKey : String) (st : RecoveryState)
    (hkeys : apiKey = "" ∧ geminiApiKey = "") (hpending : st.pending ≠ []) :
    (reconcilePending fresh apiKey geminiApiKey st).pending = [] ∧
    (reconcilePending fresh apiKey geminiApiKey st).pendingDoc = none ∧
    (reconcilePending fresh apiKey geminiApiKey st).generations =
      st.generations := by
  obtain ⟨h1, h2⟩ := hkeys
  subst h1
  subst h2
  have ht : jsTrim "" = "" := rfl
  simp [reconcilePending, hpending, ht]

/-- C4 witness: a concrete state with one stale pending record and empty
keys is discarded, the document cleared and the completed list untouched. -/
theorem reconcilePending_no_credentials_witness :
    recoveryStateW.pending ≠ [] ∧
    (reconcilePending (fun _ => "generation-f") "" "" recoveryStateW).pending
      = [] ∧
    (reconcilePending (fun _ => "generation-f") "" "" recoveryStateW).pendingDoc
      = none ∧
    (reconcilePending (fun _ => "generation-f") "" "" recoveryStateW).generations
      = recoveryStateW.generations := by
  have h := reconcilePending_no_credentials (fun _ => "generation-f") "" ""
    recoveryStateW ⟨rfl, rfl⟩ (by decide)
  exact ⟨by decide, h.1, h.2.1, h.2.2⟩

/-! ## C5 : pending recovery with credentials -/

theorem reconcileRecovered_length (fresh : Nat → String)
    (existingIds : List String) (n : Nat) (l : List Generation) :
    (reconcileRecovered fresh existingIds n l).length = l.length := by
  induction l generalizing n with
  | nil => rfl
  | cons a rest ih => simp [reconcileRecovered, ih]

theorem reconcileRecovered_getElem (fresh : Nat → String)
    (existingIds : List String) (n : Nat) (l : List Generation) (j : Nat) :
    (reconcileRecovered fresh existingIds n l)[j]? =
      (l[j]?).map (fun gen =>
        if gen.id ∈ existingIds then { gen with id := fresh (n + j) }
        else gen) := by
  induction l generalizing n j with
  | nil => simp [reconcileRecovered]
  | cons a rest ih =>
    cases j with
    | zero => simp [reconcileRecovered]
    | succ j' =>
      have hn : n + (j' + 1) = (n + 1) + j' := by omega
      simp [reconcileRecovered, ih (n + 1) j', hn]

/-- C5: with at least one credential configured, the recovery pass empties
the pending list and promotes every restored pending record to the completed
list with all non-id fields (prompt, images, input images, createdAt and the
rest) intact; its id is replaced by the freshly minted id exactly when it
collides with an id already in the completed list, and is kept otherwise
(the whole record is then unchanged). -/
theorem reconcilePending_with_credentials (fresh : Nat → String)
    (apiKey geminiApiKey : String) (st : RecoveryState)
    (hkeys : ¬(jsTrim apiKey = "" ∧ jsTrim geminiApiKey = "")) :
    (reconcilePending fresh apiKey geminiApiKey st).pending = [] ∧
    (reconcilePending fresh apiKey geminiApiKey st).generations.length =
      st.pending.length + st.generations.length ∧
    ∀ i g, st.pending[i]? = some g →
      ∃ g',
        (reconcilePending fresh apiKey geminiApiKey st).generations[i]? =
          some g' ∧
        sameExceptId g g' ∧
        (g.id ∈ st.generations.map (fun gen => gen.id) → g'.id = fresh i) ∧
        (g.id ∉ st.generations.map (fun gen => gen.id) → g' = g) := by
  by_cases hpending : st.pending = []
  · refine ⟨?_, ?_, ?_⟩
    · simp [reconcilePending, hpending]
    · simp [reconcilePending, hpending]
    · intro i g hg
      rw [hpending] at hg
      simp at hg
  · have hres : reconcilePending fresh apiKey geminiApiKey st =
        { st with
            generations :=
              reconcileRecovered fresh (st.generations.map (fun gen => gen.id))
                0 st.pending ++ st.generations,
            pending := [] } := by
      simp [reconcilePending, hpending, hkeys]
    refine ⟨by rw [hres], ?_, ?_⟩
    · rw [hres]
      simp [reconcileRecovered_length]
    · intro i g hg
      have hi : i < st.pending.length := by
        by_contra hlt
        rw [List.getElem?_eq_none (by omega)] at hg
        exact Option.noConfusion hg
      have hlen : i < (reconcileRecovered fresh
          (st.generations.map (fun gen => gen.id)) 0 st.pending).length := by
        rw [reconcileRecovered_length]
        exact hi
      have hget : (reconcilePending fresh apiKey geminiApiKey st).generations[i]? =
          (reconcileRecovered fresh (st.generations.map (fun gen => gen.id))
            0 st.pending)[i]? := by
        rw [hres]
        exact List.getElem?_append_left hlen
      rw [reconcileRecovered_getElem, hg] at hget
      by_cases hid : g.id ∈ st.generations.map (fun gen => gen.id)
      · refine ⟨{ g with id := fresh i }, ?_, ?_, ?_, ?_⟩
        · rw [hget, Option.map_some', if_pos hid]
          simp
        · exact ⟨rfl, rfl, rfl, rfl, rfl, rfl, rfl, rfl, rfl⟩
        · intro _
          rfl
        · intro hcon
          exact absurd hid hcon
      · refine ⟨g, ?_, ?_, ?_, ?_⟩
        · rw [hget, Option.map_some', if_neg hid]
        · exact ⟨rfl, rfl, rfl, rfl, rfl, rfl, rfl, rfl, rfl⟩
        · intro hcon
          exact absurd hcon hid
        · intro _
          rfl

/-- C5 witness: a concrete recovered pending record colliding with an
existing completed id is promoted with a fresh id, all other fields and its
empty slots intact, and the pending list becomes empty. -/
theorem reconcilePending_with_credentials_witness :
    ¬(jsTrim "sk-key" = "" ∧ jsTrim "" = "") ∧
    (reconcilePending (fun _ => "generation-f") "sk-key" "" recoveryStateW).pending
      = [] ∧
    (reconcilePending (fun _ => "generation-f") "sk-key" ""
        recoveryStateW).generations[0]? =
      some { recPendA with id := "generation-f" } := by
  have h := reconcilePending_with_credentials (fun _ => "generation-f")
    "sk-key" "" recoveryStateW (by decide)
  obtain ⟨g', hg', hsame, hcoll, _⟩ := h.2.2 0 recPendA (by decide)
  refine ⟨by decide, h.1, ?_⟩
  have hid : g'.id = "generation-f" := hcoll (by decide)
  have hgeq : g' = { recPendA with id := "generation-f" } := by
    obtain ⟨h1, h2, h3, h4, h5, h6, h7, h8, h9⟩ := hsame
    cases g'
    simp_all
  rw [hg', hgeq]

/-! ## C2 : sign-in merge, local wins -/

theorem mem_mergeCloudGenerations (time : String → Nat)
    (localGens cl : List Generation) (g : Generation) :
    g ∈ mergeCloudGenerations time localGens cl ↔
      g ∈ localGens ∨
        g ∈ cl.filter
          (fun x => !(decide (x.id ∈ localGens.map (fun y => y.id)))) := by
  show g ∈
      (if cl.filter
          (fun x => !(decide (x.id ∈ localGens.map (fun y => y.id)))) = []
        then localGens
        else sortByLe (fun a b => decide (time b.createdAt ≤ time a.createdAt))
          (localGens ++
            cl.filter
              (fun x => !(decide (x.id ∈ localGens.map (fun y => y.id)))))) ↔ _
  by_cases hco : cl.filter
      (fun x => !(decide (x.id ∈ localGens.map (fun y => y.id)))) = []
  · rw [if_pos hco, hco]
    simp
  · rw [if_neg hco, mem_sortByLe, List.mem_append]

theorem mem_syncWithCloudMerge (time : String → Nat)
    (localGens cloudGenerations : List Generation) (g : Generation) :
    g ∈ syncWithCloudMerge time localGens cloudGenerations ↔
      g ∈ localGens ∨
        g ∈ cloudGenerations.filter
          (fun x => !(decide (x.id ∈ localGens.map (fun y => y.id)))) := by
  show g ∈
      (if cloudGenerations.filter
          (fun x => !(decide (x.id ∈ localGens.map (fun y => y.id)))) = []
        then localGens
        else mergeCloudGenerations time localGens
          (cloudGenerations.filter
            (fun x => !(decide (x.id ∈ localGens.map (fun y => y.id)))))) ↔ _
  by_cases hco : cloudGenerations.filter
      (fun x => !(decide (x.id ∈ localGens.map (fun y => y.id)))) = []
  · rw [if_pos hco, hco]
    simp
  · rw [if_neg hco, mem_mergeCloudGenerations]
    rw [List.filter_filter]
    simp

/-- C2: the sign-in merge adds only remote records whose id is unknown
locally; every local record survives the merge unchanged, and every merged
record bearing a locally known id is the local record itself, so the remote
copy never overwrites an existing local record. -/
theorem syncWithCloudMerge_local_wins (time : String → Nat)
    (localGens cloudGenerations : List Generation) :
    (∀ g ∈ localGens, g ∈ syncWithCloudMerge time localGens cloudGenerations) ∧
    (∀ g ∈ syncWithCloudMerge time localGens cloudGenerations,
      g ∈ localGens ∨
        (g ∈ cloudGenerations ∧
          g.id ∉ localGens.map (fun x => x.id))) ∧
    (∀ g ∈ syncWithCloudMerge time localGens cloudGenerations,
      g.id ∈ localGens.map (fun x => x.id) → g ∈ localGens) := by
  refine ⟨?_, ?_, ?_⟩
  · intro g hg
    exact (mem_syncWithCloudMerge time localGens cloudGenerations g).mpr
      (Or.inl hg)
  · intro g hg
    rcases (mem_syncWithCloudMerge time localGens cloudGenerations g).mp hg
      with hl | hf
    · exact Or.inl hl
    · rw [List.mem_filter] at hf
      refine Or.inr ⟨hf.1, ?_⟩
      have := hf.2
      simpa using this
  · intro g hg hid
    rcases (mem_syncWithCloudMerge time localGens cloudGenerations g).mp hg
      with hl | hf
    · exact hl
    · rw [List.mem_filter] at hf
      have := hf.2
      simp at this
      exact absurd hid (by simpa using this)

/-- C2 witness: with local record `1` and remote records `1'` (same id,
different prompt) and `2`, the merged state keeps the local record, never
contains the conflicting remote copy, and contains the remote-only
record. -/
theorem syncWithCloudMerge_local_wins_witness :
    mergeLocalA ∈ syncWithCloudMerge (fun _ => 0) [mergeLocalA]
      [mergeRemoteA, mergeRemoteB] ∧
    mergeRemoteA ∉ syncWithCloudMerge (fun _ => 0) [mergeLocalA]
      [mergeRemoteA, mergeRemoteB] := by
  have h := syncWithCloudMerge_local_wins (fun _ => 0) [mergeLocalA]
    [mergeRemoteA, mergeRemoteB]
  refine ⟨h.1 mergeLocalA (by decide), ?_⟩
  intro hmem
  have := h.2.2 mergeRemoteA hmem (by decide)
  exact absurd this (by decide)

/-! ## C7 : debounced delta sync -/

/-- C7 counterexample: a debounced favorites firing does not upload only the
favorites delta: with favorites `a, b` and snapshot `a` the payload handed
to the upload call is the whole set `a, b`, not the delta `b`. -/
theorem syncFavoritesTick_whole_set_counterexample :
    syncFavoritesTick ["a", "b"] ["a"] true = some (["a", "b"], ["a", "b"]) ∧
    (["a", "b"] : List String) ≠
      (["a", "b"] : List String).filter
        (fun f => !(decide (f ∈ (["a"] : List String)))) := by
  constructor
  · decide
  · decide

/-- C7 (amended): a debounced records firing uploads exactly the delta
(records whose ids are not in the last-synced snapshot) and advances the
snapshot only on success, leaving it unchanged when an attempted upload
fails so the same delta is retried; the effect does not fire when the
current key equals the snapshot; a favorites firing passes the entire
current favorites set to the upload and advances the snapshot only on
success. -/
theorem sync_ticks_delta_and_snapshot (generations : List Generation)
    (favorites : List String) (genSnapshot favSnapshot : List String)
    (uploadOk : Bool) :
    (∀ batch snap,
      syncGenerationsTick generations genSnapshot uploadOk =
          some (batch, snap) →
        batch = generations.filter (fun g => !(decide (g.id ∈ genSnapshot))) ∧
        (uploadOk = true → snap = generationsSyncKey generations) ∧
        (uploadOk = false → batch ≠ [] → snap = genSnapshot)) ∧
    (generationsSyncKey generations = genSnapshot →
      syncGenerationsTick generations genSnapshot uploadOk = none) ∧
    (∀ payload snap,
      syncFavoritesTick favorites favSnapshot uploadOk = some (payload, snap) →
        payload = favorites ∧
        (uploadOk = true → snap = sortStrings favorites) ∧
        (uploadOk = false → snap = favSnapshot)) := by
  refine ⟨?_, ?_, ?_⟩
  · intro batch snap h
    unfold syncGenerationsTick at h
    by_cases hkey : generationsSyncKey generations = genSnapshot
    · simp [hkey] at h
    · rw [if_neg hkey] at h
      by_cases hnew :
          generations.filter (fun g => !(decide (g.id ∈ genSnapshot))) = []
      · rw [if_pos hnew] at h
        obtain ⟨hb, hs⟩ := Prod.mk.injEq .. ▸ Option.some_inj.mp h
        subst hb
        subst hs
        exact ⟨hnew.symm, fun _ => rfl, fun _ hne => absurd rfl hne⟩
      · rw [if_neg hnew] at h
        cases uploadOk with
        | true =>
          rw [if_pos rfl] at h
          obtain ⟨hb, hs⟩ := Prod.mk.injEq .. ▸ Option.some_inj.mp h
          subst hb
          subst hs
          exact ⟨rfl, fun _ => rfl, fun hc => absurd hc (by decide)⟩
        | false =>
          simp only [Bool.false_eq_true, if_false] at h
          obtain ⟨hb, hs⟩ := Prod.mk.injEq .. ▸ Option.some_inj.mp h
          subst hb
          subst hs
          exact ⟨rfl, fun hc => absurd hc (by decide), fun _ _ => rfl⟩
  · intro hkey
    unfold syncGenerationsTick
    rw [if_pos hkey]
  · intro payload snap h
    unfold syncFavoritesTick at h
    by_cases hkey : sortStrings favorites = favSnapshot
    · simp [hkey] at h
    · rw [if_neg hkey] at h
      cases uploadOk with
      | true =>
        rw [if_pos rfl] at h
        obtain ⟨hb, hs⟩ := Prod.mk.injEq .. ▸ Option.some_inj.mp h
        subst hb
        subst hs
        exact ⟨rfl, fun _ => rfl, fun hc => absurd hc (by decide)⟩
      | false =>
        simp only [Bool.false_eq_true, if_false] at h
        obtain ⟨hb, hs⟩ := Prod.mk.injEq .. ▸ Option.some_inj.mp h
        subst hb
        subst hs
        exact ⟨rfl, fun hc => absurd hc (by decide), fun _ => rfl⟩

/-- C7 witness: one concrete records firing with an unsynced record uploads
exactly that record and advances the snapshot; a failing favorites firing
keeps the snapshot. -/
theorem sync_ticks_delta_and_snapshot_witness :
    syncGenerationsTick [tickGen] [] true = some ([tickGen], ["w7"]) ∧
    ([tickGen] : List Generation) =
      [tickGen].filter (fun g => !(decide (g.id ∈ ([] : List String)))) ∧
    syncFavoritesTick ["a", "b"] [] false = some (["a", "b"], []) := by
  have h := sync_ticks_delta_and_snapshot [tickGen] ["a", "b"] [] [] false
  have hg : syncGenerationsTick [tickGen] [] true = some ([tickGen], ["w7"]) := by
    decide
  have hdelta := (sync_ticks_delta_and_snapshot [tickGen] ["a", "b"] [] []
    true).1 [tickGen] ["w7"] hg
  have hfav : syncFavoritesTick ["a", "b"] [] false = some (["a", "b"], []) := by
    decide
  have hfacts := h.2.2 ["a", "b"] [] hfav
  exact ⟨hg, hdelta.1, hfav⟩

/-! ## C8 : idempotent remote upsert -/

theorem countRowsWithId_filter_ne (db : List DbRow) (x : String) :
    countRowsWithId (db.filter (fun r => r.id != x)) x = 0 := by
  unfold countRowsWithId
  rw [List.countP_filter]
  apply List.countP_eq_zero.mpr
  intro r _
  simp [bne]

theorem upsertRows_cons (db : List DbRow) (r : DbRow) (rest : List DbRow) :
    upsertRows db (r :: rest) =
      upsertRows (db.filter (fun a => a.id != r.id) ++ [r]) rest := rfl

theorem countRowsWithId_upsert_of_not_mem (rows : List DbRow)
    (db : List DbRow) (x : String) (h : x ∉ rows.map (fun r => r.id)) :
    countRowsWithId (upsertRows db rows) x = countRowsWithId db x := by
  induction rows generalizing db with
  | nil => rfl
  | cons r rest ih =>
    have hx : ¬x = r.id ∧ x ∉ rest.map (fun r => r.id) := by
      simpa using h
    rw [upsertRows_cons, ih _ hx.2]
    unfold countRowsWithId
    rw [List.countP_append]
    have hne : ¬r.id = x := fun hc => hx.1 hc.symm
    have h1 : List.countP (fun a => decide (a.id = x)) [r] = 0 := by
      simp [List.countP, List.countP.go, hne]
    rw [h1, Nat.add_zero, List.countP_filter]
    apply List.countP_congr
    intro a _
    by_cases ha : a.id = x
    · simp [ha, bne]
      exact hx.1
    · simp [ha]

theorem countRowsWithId_upsert_of_mem (rows : List DbRow) (db : List DbRow)
    (x : String) (h : x ∈ rows.map (fun r => r.id)) :
    countRowsWithId (upsertRows db rows) x = 1 := by
  induction rows generalizing db with
  | nil => simp at h
  | cons r rest ih =>
    rw [upsertRows_cons]
    by_cases hrest : x ∈ rest.map (fun r => r.id)
    · exact ih _ hrest
    · have hxr : x = r.id := by
        rcases (by simpa using h : x = r.id ∨ x ∈ rest.map (fun r => r.id))
          with h1 | h1
        · exact h1
        · exact absurd h1 hrest
      rw [countRowsWithId_upsert_of_not_mem rest _ x hrest]
      unfold countRowsWithId
      rw [List.countP_append]
      have h1 : List.countP (fun a => decide (a.id = x)) [r] = 1 := by
        simp [List.countP, List.countP.go, hxr.symm]
      have h0 : List.countP (fun a => decide (a.id = x))
          (db.filter (fun a => a.id != r.id)) = 0 := by
        subst hxr
        exact countRowsWithId_filter_ne db r.id
      rw [h0, h1]

theorem uploadImagesStep_id
    (upload : String → List String → Option (List String))
    (hasBase64 : String → Bool) (uploadImages : Bool) (gen : Generation) :
    (uploadImagesStep upload hasBase64 uploadImages gen).id = gen.id := by
  unfold uploadImagesStep
  by_cases h : (uploadImages && gen.images.any hasBase64) = true
  · rw [if_pos h]
    cases upload gen.id gen.images <;> rfl
  · rw [if_neg h]

theorem saveGenerations_rows_id
    (upload : String → List String → Option (List String))
    (hasBase64 : String → Bool) (uploadImages : Bool) (userId : String)
    (generations : List Generation) :
    ((generations.map (uploadImagesStep upload hasBase64 uploadImages)).map
        (fun gen => toDbFormat gen userId)).map (fun r => r.id) =
      generations.map (fun g => g.id) := by
  induction generations with
  | nil => rfl
  | cons g rest ih =>
    simp only [List.map_cons, ih]
    exact congrArg (fun s => s :: rest.map (fun g => g.id))
      (uploadImagesStep_id upload hasBase64 uploadImages g)

/-- C8: uploading a batch containing a given record id twice through
`saveGenerationsWithImages` leaves exactly one remote row with that id: the
remote write is an upsert keyed on id, so the second upload replaces rather
than duplicates the first. -/
theorem saveGenerationsWithImages_idempotent_upsert
    (upload : String → List String → Option (List String))
    (hasBase64 : String → Bool) (userId : String) (db : List DbRow)
    (generations : List Generation) (uploadImages : Bool) (x : String)
    (hx : x ∈ generations.map (fun g => g.id)) :
    countRowsWithId
      (saveGenerationsWithImages upload hasBase64 userId
        (saveGenerationsWithImages upload hasBase64 userId db generations
          uploadImages)
        generations uploadImages) x = 1 := by
  unfold saveGenerationsWithImages
  apply countRowsWithId_upsert_of_mem
  rw [saveGenerations_rows_id]
  exact hx

/-- C8 witness: uploading the batch holding id `a` twice onto an empty
remote table leaves exactly one row with id `a`. -/
theorem saveGenerationsWithImages_idempotent_upsert_witness :
    "a" ∈ [upsertGen].map (fun g => g.id) ∧
    countRowsWithId
      (saveGenerationsWithImages (fun _ _ => none) (fun _ => false) "u"
        (saveGenerationsWithImages (fun _ _ => none) (fun _ => false) "u" []
          [upsertGen] false)
        [upsertGen] false) "a" = 1 :=
  ⟨by decide,
    saveGenerationsWithImages_idempotent_upsert _ _ _ _ _ _ _ (by decide)⟩

/-! ## C6 : missing blob on hydrate degrades to an empty field -/

theorem restoreGenerations_fst (fetch : String → Option Blob)
    (store : BlobStore) (storedData : List Generation) :
    (restoreGenerations fetch store storedData).1 =
      storedData.map (fun g => (hydrateGeneration fetch store g).1) := by
  show (storedData.map (hydrateGeneration fetch store)).map (fun r => r.1) = _
  rw [List.map_map]
  rfl

theorem hydrateImage_missing (fetch : String → Option Blob)
    (store : BlobStore) (genId : String) (index : Nat) (img : String)
    (href : isRef img = true)
    (hlook : lookupBlob store (getRefKey img) = none) :
    hydrateImage fetch store genId index img = ("", []) := by
  have hne : ¬img = "" := by
    intro he
    subst he
    exact absurd href (by decide)
  unfold hydrateImage
  rw [if_neg hne, if_pos href, hlook]

theorem hydrateInputImage_missing (fetch : String → Option Blob)
    (store : BlobStore) (genId : String) (img : InputImage)
    (href : isRef img.url = true)
    (hlook : lookupBlob store (getRefKey img.url) = none) :
    hydrateInputImage fetch store genId img = ({ img with url := "" }, []) := by
  have hne : ¬img.url = "" := by
    intro he
    rw [he] at href
    exact absurd href (by decide)
  unfold hydrateInputImage
  rw [if_neg hne, if_pos href, hlook]

/-- C6: when hydrating stored records, every image field holding a reference
string whose blob key is absent from the store comes back empty (empty
string for an output slot, empty url for an input image) while the record
itself and all its other fields are still returned: a missing blob never
fails the whole record or the whole load. -/
theorem restoreGenerations_missing_blob_degrades
    (fetch : String → Option Blob) (store : BlobStore)
    (storedData : List Generation) :
    (restoreGenerations fetch store storedData).1.length = storedData.length ∧
    ∀ (i : Nat) (g : Generation), storedData[i]? = some g →
      ∃ g', (restoreGenerations fetch store storedData).1[i]? = some g' ∧
        g'.id = g.id ∧ g'.prompt = g.prompt ∧ g'.aspect = g.aspect ∧
        g'.quality = g.quality ∧ g'.outputFormat = g.outputFormat ∧
        g'.provider = g.provider ∧ g'.createdAt = g.createdAt ∧
        g'.size = g.size ∧
        g'.images.length = g.images.length ∧
        g'.inputImages.length = g.inputImages.length ∧
        (∀ (j : Nat) (img : String), g.images[j]? = some img →
          isRef img = true → lookupBlob store (getRefKey img) = none →
          g'.images[j]? = some "") ∧
        (∀ (j : Nat) (inp : InputImage), g.inputImages[j]? = some inp →
          isRef inp.url = true → lookupBlob store (getRefKey inp.url) = none →
          g'.inputImages[j]? = some { inp with url := "" }) := by
  constructor
  · rw [restoreGenerations_fst, List.length_map]
  · intro i g hg
    refine ⟨(hydrateGeneration fetch store g).1, ?_, rfl, rfl, rfl, rfl, rfl,
      rfl, rfl, rfl, ?_, ?_, ?_, ?_⟩
    · rw [restoreGenerations_fst, List.getElem?_map, hg, Option.map_some']
    · show (mapIdxAcc (hydrateImage fetch store g.id) 0 g.images).1.length = _
      rw [mapIdxAcc_length]
    · show (mapAcc (hydrateInputImage fetch store g.id) g.inputImages).1.length = _
      rw [mapAcc_length]
    · intro j img hj href hlook
      show (mapIdxAcc (hydrateImage fetch store g.id) 0 g.images).1[j]? = some ""
      rw [mapIdxAcc_fst_getElem, hj, Option.map_some',
        hydrateImage_missing fetch store g.id (0 + j) img href hlook]
    · intro j inp hj href hlook
      show (mapAcc (hydrateInputImage fetch store g.id) g.inputImages).1[j]? = _
      rw [mapAcc_fst_getElem, hj, Option.map_some',
        hydrateInputImage_missing fetch store g.id inp href hlook]

/-- C6 witness: on a concrete stored record whose output slot and input
image both reference keys absent from an empty store, the load returns the
record with the output slot empty and the input url empty. -/
theorem restoreGenerations_missing_blob_degrades_witness :
    (restoreGenerations totalFetch [] [missingRefGen]).1.length = 1 ∧
    ((restoreGenerations totalFetch [] [missingRefGen]).1[0]?.map
      (fun g => g.images[0]?)) = some (some "") ∧
    ((restoreGenerations totalFetch [] [missingRefGen]).1[0]?.map
      (fun g => (g.inputImages[0]?).map (fun inp => inp.url))) =
      some (some "") := by
  have h := restoreGenerations_missing_blob_degrades totalFetch []
    [missingRefGen]
  obtain ⟨g', hg', hid, hpr, hasp, hq, hof, hprov, hca, hsz, hil, hiil,
    houts, hins⟩ := h.2 0 missingRefGen rfl
  have ho := houts 0 "ref:img:m:0" (by decide) (by decide) rfl
  have hi := hins 0 ⟨"i1", "name", "ref:img:m:input:i1", 4, 4⟩ (by decide)
    (by decide) rfl
  refine ⟨h.1, ?_, ?_⟩
  · rw [hg', Option.map_some', ho]
  · rw [hg', Option.map_some', hi]
    rfl

/-! ## C3 : reference integrity after dehydrate -/

/-- C3 counterexample: the unrestricted claim fails. On a record whose
fields are a pre-existing foreign reference and an unbacked `blob:` handle,
`persistGenerations` (with every fetch succeeding, so no blob write fails)
keeps the foreign reference verbatim — its key is not the deterministic
`img:` + id + `:` + index — and rewrites the `blob:` handle to the
deterministic reference without writing, so `get` on that key is absent. -/
theorem persistGenerations_claim_counterexample :
    (persistGenerations totalFetch [] [dehydrateOddGen]).1 =
      [{ dehydrateOddGen with images := ["ref:img:x:9", "ref:img:g:1"] }] ∧
    "ref:img:x:9" ≠ makeRef (getImageKey "g" 0 .output none) ∧
    lookupBlob (persistGenerations totalFetch [] [dehydrateOddGen]).2
      (getImageKey "g" 1 .output none) = none := by
  refine ⟨by decide, by decide, by decide⟩

theorem persistGenerations_fst (fetch : String → Option Blob)
    (store : BlobStore) (generations : List Generation) :
    (persistGenerations fetch store generations).1 =
      generations.map (fun g => (persistGeneration fetch g).1) := by
  show (generations.map (persistGeneration fetch)).map (fun r => r.1) = _
  rw [List.map_map]
  rfl

theorem persistGenerations_snd (fetch : String → Option Blob)
    (store : BlobStore) (generations : List Generation) :
    (persistGenerations fetch store generations).2 =
      applyWrites store
        ((generations.map (persistGeneration fetch)).map
          (fun r => r.2)).flatten := rfl

theorem persistImage_raw (fetch : String → Option Blob) (genId : String)
    (index : Nat) (img : String) (b : Blob) (hne : ¬img = "")
    (href : isRef img = false) (hblob : strStartsWith img "blob:" = false)
    (hb : fetch img = some b) :
    persistImage fetch genId index img =
      (makeRef (getImageKey genId index .output none),
        [(getImageKey genId index .output none, b)]) := by
  simp [persistImage, hne, href, hblob, hb]

theorem persistInputImage_raw (fetch : String → Option Blob) (genId : String)
    (inp : InputImage) (b : Blob) (hne : ¬inp.url = "")
    (href : isRef inp.url = false)
    (hblob : strStartsWith inp.url "blob:" = false)
    (hb : fetch inp.url = some b) :
    persistInputImage fetch genId inp =
      ({ inp with url := makeRef (getImageKey genId 0 .input (some inp.id)) },
        [(getImageKey genId 0 .input (some inp.id), b)]) := by
  simp [persistInputImage, hne, href, hblob, hb]

theorem persistGeneration_writes_subset (fetch : String → Option Blob)
    (generations : List Generation) (i : Nat) (g : Generation)
    (hg : generations[i]? = some g) :
    ∀ w ∈ (persistGeneration fetch g).2,
      w ∈ ((generations.map (persistGeneration fetch)).map
        (fun r => r.2)).flatten := by
  intro w hw
  rw [List.mem_flatten]
  refine ⟨(persistGeneration fetch g).2, ?_, hw⟩
  rw [List.map_map]
  exact List.mem_map_of_mem (fun x => (persistGeneration fetch x).2)
    (List.getElem?_mem hg)

/-- C3 (amended): after `persistGenerations` completes, every non-empty
image field that was a raw URL (not already a reference string and not a
`blob:` handle) and whose fetch-and-write succeeded is rewritten to `ref:` +
key with the deterministic key computed by `getImageKey` (`img:` + id +
`:` + index for output slots; `img:` + id + `:input:` + inputImageId for
input images with a non-empty id, falling back to the index-0 style key
when the input image id is empty), and a `get` on that key is not absent;
empty slots stay empty. Fields already holding a reference string are kept
verbatim and `blob:` fields are rewritten to the deterministic reference
without a new write (see the counterexample). -/
theorem persistGenerations_reference_integrity
    (fetch : String → Option Blob) (store : BlobStore)
    (generations : List Generation) :
    (persistGenerations fetch store generations).1.length =
      generations.length ∧
    ∀ (i : Nat) (g : Generation), generations[i]? = some g →
      ∃ g', (persistGenerations fetch store generations).1[i]? = some g' ∧
        g'.id = g.id ∧
        (∀ (j : Nat) (img : String), g.images[j]? = some img →
          (img = "" → g'.images[j]? = some "") ∧
          (¬img = "" → isRef img = false →
            strStartsWith img "blob:" = false → (fetch img).isSome = true →
            g'.images[j]? =
              some (makeRef (getImageKey g.id j .output none)) ∧
            (lookupBlob (persistGenerations fetch store generations).2
              (getImageKey g.id j .output none)).isSome = true)) ∧
        (∀ (j : Nat) (inp : InputImage), g.inputImages[j]? = some inp →
          ¬inp.url = "" → isRef inp.url = false →
          strStartsWith inp.url "blob:" = false →
          (fetch inp.url).isSome = true →
          g'.inputImages[j]? =
            some { inp with
              url := makeRef (getImageKey g.id 0 .input (some inp.id)) } ∧
          (lookupBlob (persistGenerations fetch store generations).2
            (getImageKey g.id 0 .input (some inp.id))).isSome = true) := by
  constructor
  · rw [persistGenerations_fst, List.length_map]
  · intro i g hg
    refine ⟨(persistGeneration fetch g).1, ?_, rfl, ?_, ?_⟩
    · rw [persistGenerations_fst, List.getElem?_map, hg, Option.map_some']
    · intro j img hj
      constructor
      · intro hempty
        subst hempty
        show (mapIdxAcc (persistImage fetch g.id) 0 g.images).1[j]? = some ""
        rw [mapIdxAcc_fst_getElem, hj, Option.map_some']
        rfl
      · intro hne href hblob hsome
        obtain ⟨b, hb⟩ := Option.isSome_iff_exists.mp hsome
        have heval := persistImage_raw fetch g.id (0 + j) img b hne href
          hblob hb
        constructor
        · show (mapIdxAcc (persistImage fetch g.id) 0 g.images).1[j]? = _
          rw [mapIdxAcc_fst_getElem, hj, Option.map_some', heval]
          simp [Nat.zero_add]
        · have hwmem : (getImageKey g.id j .output none, b) ∈
              (persistGeneration fetch g).2 := by
            have hsub := mapIdxAcc_snd_subset (persistImage fetch g.id) 0
              g.images j img hj
            have hmem1 : (getImageKey g.id (0 + j) .output none, b) ∈
                (persistImage fetch g.id (0 + j) img).2 := by
              rw [heval]
              exact List.mem_singleton.mpr rfl
            have h2 := hsub _ hmem1
            rw [Nat.zero_add] at h2
            show _ ∈ (mapIdxAcc (persistImage fetch g.id) 0 g.images).2 ++
              (mapAcc (persistInputImage fetch g.id) g.inputImages).2
            exact List.mem_append_left _ h2
          rw [persistGenerations_snd]
          apply lookupBlob_applyWrites_of_mem
          exact List.mem_map_of_mem Prod.fst
            (persistGeneration_writes_subset fetch generations i g hg _ hwmem)
    · intro j inp hj hne href hblob hsome
      obtain ⟨b, hb⟩ := Option.isSome_iff_exists.mp hsome
      have heval := persistInputImage_raw fetch g.id inp b hne href hblob hb
      constructor
      · show (mapAcc (persistInputImage fetch g.id) g.inputImages).1[j]? = _
        rw [mapAcc_fst_getElem, hj, Option.map_some', heval]
      · have hwmem : (getImageKey g.id 0 .input (some inp.id), b) ∈
            (persistGeneration fetch g).2 := by
          have hsub := mapAcc_snd_subset (persistInputImage fetch g.id)
            g.inputImages j inp hj
          have hmem1 : (getImageKey g.id 0 .input (some inp.id), b) ∈
              (persistInputImage fetch g.id inp).2 := by
            rw [heval]
            exact List.mem_singleton.mpr rfl
          show _ ∈ (mapIdxAcc (persistImage fetch g.id) 0 g.images).2 ++
            (mapAcc (persistInputImage fetch g.id) g.inputImages).2
          exact List.mem_append_right _ (hsub _ hmem1)
        rw [persistGenerations_snd]
        apply lookupBlob_applyWrites_of_mem
        exact List.mem_map_of_mem Prod.fst
          (persistGeneration_writes_subset fetch generations i g hg _ hwmem)

/-- C3 witness: a record whose output slot and input image are raw data
URLs dehydrates, with an always-succeeding fetch, to the deterministic
references with both keys present in the store. -/
theorem persistGenerations_reference_integrity_witness :
    (persistGenerations totalFetch [] [dehydrateRawGen]).1.length = 1 ∧
    ((persistGenerations totalFetch [] [dehydrateRawGen]).1[0]?.map
      (fun g => g.images[0]?)) =
      some (some (makeRef (getImageKey "g" 0 .output none))) ∧
    (lookupBlob (persistGenerations totalFetch [] [dehydrateRawGen]).2
      (getImageKey "g" 0 .output none)).isSome = true ∧
    (lookupBlob (persistGenerations totalFetch [] [dehydrateRawGen]).2
      (getImageKey "g" 0 .input (some "i1"))).isSome = true := by
  have h := persistGenerations_reference_integrity totalFetch []
    [dehydrateRawGen]
  obtain ⟨g', hg', hid, houts, hins⟩ := h.2 0 dehydrateRawGen (by decide)
  have ho := (houts 0 "data:x" (by decide)).2 (by decide) (by decide)
    (by decide) (by decide)
  have hi := hins 0 ⟨"i1", "name", "data:y", 4, 4⟩ (by decide) (by decide)
    (by decide) (by decide) (by decide)
  refine ⟨h.1, ?_, ho.2, hi.2⟩
  rw [hg', Option.map_some', ho.1]
  rfl

end NanoBanana
